import Mathlib

/-!
Verification of the data-collection subsystem of the AI-BI-server repository.

The Python sources embedded here:
  * `src/app/scrapers/base.py`      — `DataType`, `DataSource`, `RawData`,
    `BaseScraper.post_process`, `BaseScraper.run`
  * `src/app/scrapers/eastmoney.py` — `EastMoneyScraper._wait_for_request`,
    `_get_fund_rank_page`, `get_all_fund_rank_data`, `get_data_url`, `fetch_data`
  * `src/app/services/scrape_service.py` — `ScrapeService.update_fund_rank`,
    `create_scrape_task`, `run_scrape_task`, `_save_raw_data`

Modelling conventions: Python floats are carried as `ℚ` (the claims only move
the parsed values around, no float rounding is relevant); the HTTP transport
is an explicit input (`FetchResult` per request); the SQLAlchemy tables are
lists of rows in insertion order (`query(...).first()` = `List.find?`,
`add`+`commit` = append); the regex scans of the source are rendered as
explicit first-occurrence substring scans over `List Char` so that every
definition evaluates inside the kernel.
-/

namespace AIBI

/-- `DataType(str, Enum)` from `src/app/scrapers/base.py`. -/
inductive DataType where
  | fund_basic
  | fund_daily
  | fund_holdings
  | fund_rating
  | other
  deriving DecidableEq, Repr

/-- The string value of the enum member (what a Python f-string inserts for a
`(str, Enum)` member). -/
def DataType.value : DataType → String
  | .fund_basic => "fund_basic"
  | .fund_daily => "fund_daily"
  | .fund_holdings => "fund_holdings"
  | .fund_rating => "fund_rating"
  | .other => "other"

/-- `DataSource(str, Enum)` from `src/app/scrapers/base.py`. -/
inductive DataSource where
  | eastmoney
  | tiantian
  | xueqiu
  | ant
  | other
  deriving DecidableEq, Repr

/-- The string value of the enum member. -/
def DataSource.value : DataSource → String
  | .eastmoney => "eastmoney"
  | .tiantian => "tiantian"
  | .xueqiu => "xueqiu"
  | .ant => "ant"
  | .other => "other"

/-- `RawData` dataclass from `src/app/scrapers/base.py`.  The `metadata`
dictionary (`Dict[str, Any]`) is omitted: no claim reads it, and no code path
of the embedded functions branches on it. -/
structure RawData where
  fund_code : String
  data_type : DataType
  source : DataSource
  source_url : String
  raw_content : String
  deriving DecidableEq, Repr

/-! ### Kernel-computable string scanning

`_get_fund_rank_page` locates its payload with `re.search` over plain
substring markers (`var rankData = `, `datas:[`, `totalCount:`) and splits
rows with `str.split`.  We implement first-occurrence scanning directly on
`List Char` with structural recursion so that concrete payloads evaluate by
`decide`. -/

/-- If `pre` is a leading fragment of `l`, return the remainder. -/
def stripLeading : List Char → List Char → Option (List Char)
  | [], l => some l
  | _, [] => none
  | p :: ps, c :: cs => if c = p then stripLeading ps cs else none

/-- Worker for `splitChars`: fuel-driven left-to-right non-overlapping split,
exactly the semantics of Python `str.split(sep)` for a non-empty `sep`
(the fuel is set to the input length, which step-wise dominates the scan). -/
def splitLoop (sep : List Char) : Nat → List Char → List Char → List (List Char)
  | _, [], acc => [acc.reverse]
  | 0, rest, acc => [acc.reverse ++ rest]
  | fuel + 1, c :: cs, acc =>
    match stripLeading sep (c :: cs) with
    | some rest => acc.reverse :: splitLoop sep fuel rest []
    | none => splitLoop sep fuel cs (c :: acc)

/-- Python `s.split(sep)` for non-empty `sep`, on character lists. -/
def splitChars (sep l : List Char) : List (List Char) :=
  splitLoop sep l.length l []

/-- Python `s.split(sep)` on strings. -/
def splitStr (sep s : String) : List String :=
  (splitChars sep.data s.data).map (fun l => ⟨l⟩)

/-- Glue the pieces after the first occurrence of a separator back together:
given `splitChars sep l = p :: ps`, `glueWith sep ps` is the suffix of `l`
that follows the first occurrence of `sep` (mirrors how `re.search` keeps
scanning the whole remainder). -/
def glueWith (sep : List Char) (ps : List (List Char)) : List Char :=
  (ps.intersperse sep).flatten

/-- `l.startswith pre` on character lists. -/
def listStarts (pre l : List Char) : Bool :=
  (stripLeading pre l).isSome

/-- Value of a digit run, most significant first (`int(...)` on a digit
string). -/
def digitsToNat (l : List Char) : Nat :=
  l.foldl (fun n c => n * 10 + (c.toNat - 48)) 0

/-- Python `float(s)` on the plain decimal literals that occur in the
rank payload (optional sign, digit run, optional `.` and fraction digits);
anything else — in particular a string still carrying a `%` — raises
`ValueError`, modelled as `none`.  Exponent forms, `inf`/`nan` and
surrounding whitespace never occur in these payloads and are not modelled. -/
def parseFloat? (s : String) : Option ℚ :=
  let cs := s.data
  let signed : ℚ × List Char :=
    match cs with
    | '-' :: rest => (-1, rest)
    | '+' :: rest => (1, rest)
    | _ => (1, cs)
  let sign := signed.1
  let body := signed.2
  let intPart := body.takeWhile Char.isDigit
  let rest := body.dropWhile Char.isDigit
  match rest with
  | [] => if intPart.isEmpty then none else some (sign * digitsToNat intPart)
  | '.' :: frac =>
    if frac.all Char.isDigit && !(intPart.isEmpty && frac.isEmpty) then
      some (sign * ((digitsToNat intPart : ℚ)
        + (digitsToNat frac : ℚ) / (10 : ℚ) ^ frac.length))
    else none
  | _ => none

/-- Python `s.rstrip("%")`: drop every trailing `'%'`. -/
def rstripPct (s : String) : String :=
  ⟨(s.data.reverse.dropWhile (fun c => c = '%')).reverse⟩

/-! ### `EastMoneyScraper._get_fund_rank_page` — the rank-listing parser -/

/-- One parsed row of the rank listing (the dict built at
`eastmoney.py:133-175`). -/
structure FundRow where
  fund_code : String
  fund_name : String
  short_name : String
  nav_date : String
  nav : Option ℚ
  accum_nav : Option ℚ
  daily_growth : Option ℚ
  weekly_growth : Option ℚ
  monthly_growth : Option ℚ
  quarterly_growth : Option ℚ
  yearly_growth : Option ℚ
  deriving DecidableEq, Repr

/-- `float(f) if f != "" else None` — a failing `float` raises, which the
enclosing `except` turns into an aborted page, hence `Except`. -/
def optFloatField (s : String) : Except Unit (Option ℚ) :=
  if s = "" then .ok none
  else
    match parseFloat? s with
    | some q => .ok (some q)
    | none => .error ()

/-- `float(f.rstrip("%")) if f != "" else None` (percentage columns). -/
def pctField (s : String) : Except Unit (Option ℚ) :=
  if s = "" then .ok none
  else
    match parseFloat? (rstripPct s) with
    | some q => .ok (some q)
    | none => .error ()

/-- Body of the per-row loop at `eastmoney.py:128-176` on the already split
field list: a row with fewer than 10 fields is skipped (`.ok none`); a field
that defeats `float` aborts the page (`.error`). -/
def parseFundFields (fund_fields : List String) : Except Unit (Option FundRow) :=
  if 10 ≤ fund_fields.length then do
    let nav ← optFloatField (fund_fields.getD 4 "")
    let accum_nav ← optFloatField (fund_fields.getD 5 "")
    let daily_growth ← pctField (fund_fields.getD 6 "")
    let weekly_growth ← pctField (fund_fields.getD 7 "")
    let monthly_growth ← pctField (fund_fields.getD 8 "")
    let quarterly_growth ← pctField (fund_fields.getD 9 "")
    let yearly_growth ←
      if 10 < fund_fields.length then pctField (fund_fields.getD 10 "")
      else pure none
    pure (some
      { fund_code := fund_fields.getD 0 ""
        fund_name := fund_fields.getD 1 ""
        short_name := fund_fields.getD 2 ""
        nav_date := fund_fields.getD 3 ""
        nav := nav
        accum_nav := accum_nav
        daily_growth := daily_growth
        weekly_growth := weekly_growth
        monthly_growth := monthly_growth
        quarterly_growth := quarterly_growth
        yearly_growth := yearly_growth })
  else pure none

/-- One quoted row string: `fund_fields = fund_str.split(",")` then the loop
body above. -/
def parseFundStr (fund_str : String) : Except Unit (Option FundRow) :=
  parseFundFields (splitStr "," fund_str)

/-- The whole row loop: accepted rows in order, skipped short rows dropped,
first conversion error aborts (the `except` at `eastmoney.py:195`). -/
def parseFundStrings : List String → Except Unit (List FundRow)
  | [] => .ok []
  | s :: rest => do
    let r ← parseFundStr s
    let rs ← parseFundStrings rest
    match r with
    | some row => .ok (row :: rs)
    | none => .ok rs

/-- Result dictionary of `_get_fund_rank_page`: `{"data": ..., "total": ...}`.
Note the function's return type has no error variant at all. -/
structure RankPage where
  data : List FundRow
  total : Nat
  deriving DecidableEq, Repr

/-- `re.search(r"var rankData = (\{.*?\});", content, re.DOTALL)`: the text
from the first occurrence of the marker, required to open with `{`, captured
up to the first `};` (non-greedy), group including the closing brace.
(If the first marker occurrence is not followed by `{...};` the real regex
would retry at a later occurrence; the payloads at issue have at most one
occurrence, so the first-occurrence scan is faithful there.) -/
def rankDataMatch (content : String) : Option String :=
  match splitChars "var rankData = ".data content.data with
  | _ :: p :: ps =>
    let after := p ++ glueWith "var rankData = ".data ps
    if listStarts "\x7b".data after then
      match splitChars "\x7d;".data after with
      | g :: _ :: _ => some ⟨g ++ "\x7d".data⟩
      | _ => none
    else none
  | _ => none

/-- `re.search(r"datas:\[(.*?)\]", rank_data_str, re.DOTALL)`: the text
between the first `datas:[` and the first following `]`. -/
def datasMatch (s : String) : Option String :=
  match splitChars "datas:[".data s.data with
  | _ :: p :: ps =>
    match splitChars "]".data (p ++ glueWith "datas:[".data ps) with
    | g :: _ :: _ => some ⟨g⟩
    | _ => none
  | _ => none

/-- `re.findall(r'"([^\x22]+)"', datas_content)` on the pieces between
quotes: a quote opens a match only when at least one non-quote character
follows before the next quote; on success the scan resumes after the closing
quote, on failure the would-be closing quote becomes the next opening
candidate. -/
def quotedGo : List (List Char) → List (List Char)
  | _ :: c :: r :: rest =>
    if c = [] then quotedGo (c :: r :: rest)
    else c :: quotedGo (r :: rest)
  | _ => []

/-- All captured quoted fragments of a string. -/
def quotedStrings (s : String) : List String :=
  (quotedGo (splitChars "\"".data s.data)).map (fun l => ⟨l⟩)

/-- `re.search(r"totalCount:(\d+)", rank_data_str)`: digit run after the
first `totalCount:` (the payload carries at most one such marker). -/
def totalCountMatch (s : String) : Option Nat :=
  match splitChars "totalCount:".data s.data with
  | _ :: p :: ps =>
    let ds := (p ++ glueWith "totalCount:".data ps).takeWhile Char.isDigit
    if ds = [] then none else some (digitsToNat ds)
  | _ => none

/-- Outcome of one `requests.get` (+ `raise_for_status`): the body text, or a
raised `requests.RequestException`. -/
inductive FetchResult where
  | ok (body : String)
  | requestError (msg : String)
  deriving DecidableEq, Repr

/-- `_get_fund_rank_page` (`eastmoney.py:37-213`), with the HTTP response as
explicit input.  Every failure path — transport error (line 204), missing
`rankData` marker (line 98), missing `datas` field (line 192), a field value
that defeats `float` (line 195) — is logged and yields the same
`{"data": [], "total": 0}` value that an empty listing yields. -/
def getFundRankPage (resp : FetchResult) : RankPage :=
  match resp with
  | .requestError _ => ⟨[], 0⟩
  | .ok content =>
    match rankDataMatch content with
    | none => ⟨[], 0⟩
    | some grp =>
      match datasMatch grp with
      | none => ⟨[], 0⟩
      | some datas =>
        match parseFundStrings (quotedStrings datas) with
        | .error _ => ⟨[], 0⟩
        | .ok rows => ⟨rows, (totalCountMatch grp).getD rows.length⟩

/-! ### `EastMoneyScraper.get_all_fund_rank_data` — the paginated collector

The page fetch (`_get_fund_rank_page(page, page_size)`) is passed in as a
function of the page number (page size fixed at the default 50 in this
branch).  The thread pool at `eastmoney.py:266-285` appends page results in
completion order; we enumerate in page order — every claim about this
function concerns which pages are fetched and how many records result,
neither of which depends on the interleaving.  A worker exception is caught
and its page skipped; a fetch that fails inside `_get_fund_rank_page`
already returns `{"data": [], "total": 0}` instead of raising. -/

/-- The `max_pages is not None` branch of `get_all_fund_rank_data`
(`eastmoney.py:238-285`). -/
def getAllFundRankDataPaged (fetchPage : Nat → RankPage) (max_pages : Nat) :
    List FundRow :=
  let first := fetchPage 1
  let total := first.total
  if total = 0 then first.data
  else
    let actual_total_pages := (total + 49) / 50
    let total_pages :=
      if actual_total_pages < max_pages then actual_total_pages else max_pages
    if 1 < total_pages then
      first.data ++ (List.range' 2 (total_pages - 1)).flatMap
        (fun p => (fetchPage p).data)
    else first.data

/-- The pages the paged branch requests, in the order the code submits them:
page 1 always, then `range(2, total_pages + 1)`. -/
def fetchedPages (fetchPage : Nat → RankPage) (max_pages : Nat) : List Nat :=
  let total := (fetchPage 1).total
  if total = 0 then [1]
  else
    let actual_total_pages := (total + 49) / 50
    let total_pages :=
      if actual_total_pages < max_pages then actual_total_pages else max_pages
    if 1 < total_pages then 1 :: List.range' 2 (total_pages - 1) else [1]

/-- `get_all_fund_rank_data(max_pages)` (`eastmoney.py:215-290`); the fetch
function takes `(page, page_size)`.  `max_pages = None` requests one page of
size 100000; otherwise the paged branch runs with the default page size 50. -/
def getAllFundRankData (fetchPage : Nat → Nat → RankPage) :
    Option Nat → List FundRow
  | none => (fetchPage 1 100000).data
  | some max_pages => getAllFundRankDataPaged (fun p => fetchPage p 50) max_pages

/-! ### `ScrapeService.update_fund_rank` (`scrape_service.py:141-320`) -/

/-- Return value of `update_fund_rank`: the `{"status": "error", ...}`
dictionaries, or the `{"status": "success", ...}` summary. -/
inductive UpdateResult where
  | err (message : String)
  | ok (total_count success_count failed_count : Nat)
  deriving DecidableEq, Repr

/-- `update_fund_rank` for the eastmoney scraper (registered, and it has
`get_all_fund_rank_data`, so the two guard returns at lines 154-160 do not
fire).  The per-row database upsert loop (lines 177-311) only decides, for
each row, whether the `try` body commits (success) or raises and rolls back
(failure); it is abstracted by the `rowCommits` predicate, which no claim
inspects further.  The guard at lines 165-167 is the object of claim C6:
an empty collection result is returned as `{"status": "error"}`. -/
def updateFundRank (fetchPage : Nat → Nat → RankPage) (max_pages : Option Nat)
    (rowCommits : FundRow → Bool) : UpdateResult :=
  let fund_rank_data := getAllFundRankData fetchPage max_pages
  if fund_rank_data.isEmpty then .err "fetch rank data failed"
  else
    let success_count := (fund_rank_data.filter rowCommits).length
    .ok fund_rank_data.length success_count
      (fund_rank_data.length - success_count)

/-! ### `EastMoneyScraper.get_data_url` / `fetch_data`
(`eastmoney.py:451-546`) -/

/-- `get_data_url(fund_code, data_type)`. -/
def getDataUrl (fund_code : String) (data_type : DataType) : String :=
  match data_type with
  | .fund_daily => "https://api.fund.eastmoney.com/fund/nav"
  | .fund_holdings =>
    "https://fund.eastmoney.com/fund/f10/FundArchivesDatas.aspx?type=jjcc&code="
      ++ fund_code
  | _ => "https://fund.eastmoney.com/" ++ fund_code ++ ".html"

/-- `fetch_data(fund_code_list, data_type)`: one request per code (the
transport outcome is indexed by the fund code, since for `FUND_DAILY` the
URL is code-independent and the code travels in the query parameters).
A `RequestException` is caught, logged, and the code simply contributes no
`RawData` — there is no error value in the returned list. -/
def fetchData (transport : String → FetchResult) (data_type : DataType)
    (fund_code_list : List String) : List RawData :=
  fund_code_list.filterMap (fun code =>
    match transport code with
    | .ok body =>
      some ⟨code, data_type, .eastmoney, getDataUrl code data_type, body⟩
    | .requestError _ => none)

/-! ### `BaseScraper.post_process` / `run` (`base.py:94-137`) -/

/-- The dedup key of `post_process`:
`f"{data.fund_code}-{data.data_type}-{data.source}-{data.source_url}"`
(f-strings insert the enum string values). -/
def keyOf (d : RawData) : String :=
  d.fund_code ++ "-" ++ d.data_type.value ++ "-" ++ d.source.value ++ "-"
    ++ d.source_url

/-- The loop of `post_process` with the running `seen` set (modelled as the
list of inserted keys; only membership is consulted). -/
def postProcessAux (seen : List String) : List RawData → List RawData
  | [] => []
  | d :: rest =>
    if keyOf d ∈ seen then postProcessAux seen rest
    else d :: postProcessAux (keyOf d :: seen) rest

/-- `post_process(raw_data_list)` (`base.py:94-114`). -/
def postProcess (raw_data_list : List RawData) : List RawData :=
  postProcessAux [] raw_data_list

/-- Spec wording of claim C10, for comparison: deduplication by the *tuple*
`(fund_code, data_type, source, source_url)` rather than by the dash-joined
string the code builds. -/
def postProcessByTupleAux (seen : List (String × DataType × DataSource × String)) :
    List RawData → List RawData
  | [] => []
  | d :: rest =>
    if (d.fund_code, d.data_type, d.source, d.source_url) ∈ seen then
      postProcessByTupleAux seen rest
    else
      d :: postProcessByTupleAux
        ((d.fund_code, d.data_type, d.source, d.source_url) :: seen) rest

/-- Dedup by tuple key (the claim's reading of `post_process`). -/
def postProcessByTuple (raw_data_list : List RawData) : List RawData :=
  postProcessByTupleAux [] raw_data_list

/-- `BaseScraper.run` (`base.py:116-137`): `pre_process` is the identity on
the parameters, then fetch, then `post_process`. -/
def scraperRun (transport : String → FetchResult) (data_type : DataType)
    (fund_code_list : List String) : List RawData :=
  postProcess (fetchData transport data_type fund_code_list)

/-! ### `ScrapeService._save_raw_data` (`scrape_service.py:641-672`) -/

/-- A row of the `RawFundData` table (`db/models.py`); timestamps omitted,
no embedded code path reads them. -/
structure RawFundData where
  fund_code : String
  data_type : DataType
  source : DataSource
  source_url : String
  raw_content : String
  is_processed : Bool
  deriving DecidableEq, Repr

/-- The duplicate-check filter of `_save_raw_data`: equality on
`(fund_code, data_type, source, source_url)`. -/
def matchesKey (r : RawData) (row : RawFundData) : Bool :=
  row.fund_code == r.fund_code && row.data_type == r.data_type
    && row.source == r.source && row.source_url == r.source_url

/-- Whether a row with the record's key is already persisted
(`query(...).first()` is not `None`). -/
def rawDataExists (r : RawData) (db : List RawFundData) : Bool :=
  (db.find? (matchesKey r)).isSome

/-- `_save_raw_data(raw_data)`: if a row with equal key exists, log and
return without writing; else insert and commit.  The table is the insertion-
ordered row list. -/
def saveRawData (r : RawData) (db : List RawFundData) : List RawFundData :=
  match db.find? (matchesKey r) with
  | some _ => db
  | none =>
    db ++ [⟨r.fund_code, r.data_type, r.source, r.source_url,
      r.raw_content, false⟩]

/-- Whether a call `_save_raw_data(r)` against `db` performs a write — the
branch it takes, i.e. the `stored` flag of the spec's
`store(record) → (stored: bool)`. -/
def savePerformedWrite (r : RawData) (db : List RawFundData) : Bool :=
  !(rawDataExists r db)

/-! ### Task orchestration
(`ScrapeService.create_scrape_task` / `run_scrape_task`,
`scrape_service.py:505-639`) -/

/-- A `ScrapeTask` row.  `start_time`/`end_time` omitted (set but never read
by any embedded path or claim). -/
structure ScrapeTask where
  task_id : String
  source : DataSource
  data_type : DataType
  status : String
  total_count : Nat
  success_count : Nat
  error_count : Nat
  error_message : Option String
  deriving DecidableEq, Repr

/-- A `ScrapeTaskItem` row; the foreign key to the task is carried as the
task's string id. -/
structure ScrapeTaskItem where
  task_ref : String
  fund_code : String
  status : String
  error_message : Option String
  deriving DecidableEq, Repr

/-- `create_scrape_task(source, data_type, fund_code_list)`
(`scrape_service.py:505-543`): the fresh `uuid4()` is an explicit input.
Returns the created task row and its item rows; the task id is the returned
value of the Python function (`task.task_id`). -/
def createScrapeTask (task_id : String) (source : DataSource)
    (data_type : DataType) (fund_code_list : List String) :
    ScrapeTask × List ScrapeTaskItem :=
  (⟨task_id, source, data_type, "pending", fund_code_list.length, 0, 0, none⟩,
    fund_code_list.map (fun code => ⟨task_id, code, "pending", none⟩))

/-- `next((item for item in task_items if item.fund_code == ...), None)`
followed by the status/error update: set the first item with the given fund
code. -/
def markItem (code status : String) (err : Option String) :
    List ScrapeTaskItem → List ScrapeTaskItem
  | [] => []
  | it :: rest =>
    if it.fund_code = code then
      { it with status := status, error_message := err } :: rest
    else it :: markItem code status err rest

/-- `run_scrape_task` (`scrape_service.py:545-639`) for a task whose source
has a registered scraper (eastmoney), on the task and its items.  The
transport outcome per fund code drives `fetch_data`; `saveOk` says whether
`_save_raw_data` for a given record commits or raises (a raise is caught,
counted as an error and marks the item failed; note the count loop runs over
the *fetched* records, not over the task items). -/
def runScrapeTask (transport : String → FetchResult) (saveOk : String → Bool)
    (task : ScrapeTask) (items : List ScrapeTaskItem) :
    ScrapeTask × List ScrapeTaskItem :=
  let task := { task with status := "running" }
  let fund_code_list := items.map (fun it => it.fund_code)
  let raw_data_list := scraperRun transport task.data_type fund_code_list
  let step := fun (acc : Nat × Nat × List ScrapeTaskItem) (r : RawData) =>
    if saveOk r.fund_code then
      (acc.1 + 1, acc.2.1, markItem r.fund_code "success" none acc.2.2)
    else
      (acc.1, acc.2.1 + 1,
        markItem r.fund_code "failed" (some "save error") acc.2.2)
  let res := raw_data_list.foldl step (0, 0, items)
  ({ task with
      status := "completed"
      success_count := res.1
      error_count := res.2.1 }, res.2.2)

/-! ### `EastMoneyScraper._wait_for_request` — the rate limiter
(`eastmoney.py:22-35`)

The whole body runs under `self.lock`, so concurrent calls execute as a
serialized sequence of read-compute-sleep-update steps; the model is that
sequence.  The clock is idealized: `time.sleep(d)` suspends for exactly `d`
and the second `time.time()` reads the wake-up instant (a longer sleep or a
later read only moves a grant further from its predecessor).  Each call is
described by the time elapsed between the previous update of
`last_request_time` and this call's first `time.time()` read — nonnegative,
because the clock is monotone and the read happens after the previous
holder's update. -/

/-- `self.request_interval = 2` seconds. -/
def requestInterval : ℚ := 2

/-- One serialized `_wait_for_request` body: given the stored
`last_request_time` and the `current_time` read under the lock, the instant
the call returns (= the new `last_request_time`). -/
def waitForRequest (last current : ℚ) : ℚ :=
  if current - last < requestInterval then last + requestInterval
  else current

/-- The grant instants of a serialized sequence of `_wait_for_request`
calls, the i-th call entering `delays[i] ≥ 0` after the previous grant. -/
def grantTimes (last : ℚ) : List ℚ → List ℚ
  | [] => []
  | d :: ds =>
    let g := waitForRequest last (last + d)
    g :: grantTimes g ds

/-! ## Helper lemmas -/

/-- The paged collector's result is precisely the concatenation of the page
data over the pages it requests. -/
theorem getAllFundRankDataPaged_eq_flatMap (f : Nat → RankPage) (m : Nat) :
    getAllFundRankDataPaged f m
      = (fetchedPages f m).flatMap (fun p => (f p).data) := by
  simp only [getAllFundRankDataPaged, fetchedPages]
  split_ifs <;> simp

/-- The requested pages are `1 .. min maxPages (ceil (total / 50))` whenever
at least one page is requested and page 1 reports a positive total. -/
theorem fetchedPages_eq_range (f : Nat → RankPage) (m : Nat) (hm : 1 ≤ m)
    (ht : 1 ≤ (f 1).total) :
    fetchedPages f m = List.range' 1 (min m (((f 1).total + 49) / 50)) := by
  have h0 : ¬ (f 1).total = 0 := by omega
  have hatp : 1 ≤ ((f 1).total + 49) / 50 := by omega
  simp only [fetchedPages, h0, if_false]
  have hsel : (if ((f 1).total + 49) / 50 < m then ((f 1).total + 49) / 50
      else m) = min m (((f 1).total + 49) / 50) := by
    split_ifs with h <;> omega
  rw [hsel]
  by_cases h1 : 1 < min m (((f 1).total + 49) / 50)
  · rw [if_pos h1]
    obtain ⟨k, hk⟩ : ∃ k, min m (((f 1).total + 49) / 50) = k + 1 :=
      ⟨min m (((f 1).total + 49) / 50) - 1, by omega⟩
    rw [hk]
    rfl
  · rw [if_neg h1]
    have hone : min m (((f 1).total + 49) / 50) = 1 := by omega
    rw [hone]
    rfl

/-- A field bound by `optFloatField` is `none` when the raw field is the
empty string. -/
theorem optFloatField_empty_none (s : String) (v : Option ℚ)
    (h : optFloatField s = .ok v) (hs : s = "") : v = none := by
  subst hs
  simp [optFloatField] at h
  exact h.symm

/-- A nonempty field bound by `optFloatField` is the parsed value of the raw
field text. -/
theorem optFloatField_some (s : String) (v : Option ℚ)
    (h : optFloatField s = .ok v) (hs : s ≠ "") :
    ∃ q, parseFloat? s = some q ∧ v = some q := by
  rw [optFloatField, if_neg hs] at h
  cases hq : parseFloat? s with
  | none => rw [hq] at h; exact Except.noConfusion h
  | some q =>
    rw [hq] at h
    injection h with h'
    exact ⟨q, rfl, h'.symm⟩

/-- A percentage field bound by `pctField` is `none` when the raw field is
the empty string. -/
theorem pctField_empty_none (s : String) (v : Option ℚ)
    (h : pctField s = .ok v) (hs : s = "") : v = none := by
  subst hs
  simp [pctField] at h
  exact h.symm

/-- A nonempty percentage field bound by `pctField` is the parsed value of
the `%`-stripped raw field text. -/
theorem pctField_some (s : String) (v : Option ℚ)
    (h : pctField s = .ok v) (hs : s ≠ "") :
    ∃ q, parseFloat? (rstripPct s) = some q ∧ v = some q := by
  rw [pctField, if_neg hs] at h
  cases hq : parseFloat? (rstripPct s) with
  | none => rw [hq] at h; exact Except.noConfusion h
  | some q =>
    rw [hq] at h
    injection h with h'
    exact ⟨q, rfl, h'.symm⟩

/-- The head of `dropWhile p` never satisfies `p`. -/
theorem head_dropWhile_false (p : Char → Bool) (l : List Char) (c : Char)
    (h : (l.dropWhile p).head? = some c) : p c = false := by
  induction l with
  | nil => simp at h
  | cons a as ih =>
    cases hpa : p a with
    | true =>
      rw [List.dropWhile_cons] at h
      simp only [hpa, if_true] at h
      exact ih h
    | false =>
      rw [List.dropWhile_cons] at h
      simp only [hpa, Bool.false_eq_true, if_false, List.head?_cons,
        Option.some.injEq] at h
      exact h ▸ hpa

/-- `rstrip("%")` leaves no trailing `'%'`. -/
theorem rstripPct_no_trailing (s : String) (c : Char)
    (h : (rstripPct s).data.getLast? = some c) : c ≠ '%' := by
  rw [rstripPct] at h
  rw [List.getLast?_reverse] at h
  have := head_dropWhile_false _ _ _ h
  simpa using this

/-- Inversion of the accepted-row parser: a row that parses pins every
field to the corresponding field parser applied to the corresponding raw
field. -/
theorem parseFundFields_inv (fields : List String) (row : FundRow)
    (h : parseFundFields fields = .ok (some row)) :
    10 ≤ fields.length ∧
    optFloatField (fields.getD 4 "") = .ok row.nav ∧
    optFloatField (fields.getD 5 "") = .ok row.accum_nav ∧
    pctField (fields.getD 6 "") = .ok row.daily_growth ∧
    pctField (fields.getD 7 "") = .ok row.weekly_growth ∧
    pctField (fields.getD 8 "") = .ok row.monthly_growth ∧
    pctField (fields.getD 9 "") = .ok row.quarterly_growth ∧
    (if 10 < fields.length then pctField (fields.getD 10 "")
      else pure none) = .ok row.yearly_growth := by
  by_cases hlen : 10 ≤ fields.length
  case neg =>
    rw [parseFundFields, if_neg hlen] at h
    simp [pure, Except.pure] at h
  case pos =>
    rw [parseFundFields, if_pos hlen] at h
    cases e4 : optFloatField (fields.getD 4 "") with
    | error u =>
      rw [e4] at h
      simp only [Bind.bind, Except.bind] at h
      exact Except.noConfusion h
    | ok v4 =>
    rw [e4] at h
    simp only [Bind.bind, Except.bind] at h
    cases e5 : optFloatField (fields.getD 5 "") with
    | error u =>
      rw [e5] at h
      simp only [Except.bind] at h
      exact Except.noConfusion h
    | ok v5 =>
    rw [e5] at h
    simp only [Except.bind] at h
    cases e6 : pctField (fields.getD 6 "") with
    | error u =>
      rw [e6] at h
      simp only [Except.bind] at h
      exact Except.noConfusion h
    | ok v6 =>
    rw [e6] at h
    simp only [Except.bind] at h
    cases e7 : pctField (fields.getD 7 "") with
    | error u =>
      rw [e7] at h
      simp only [Except.bind] at h
      exact Except.noConfusion h
    | ok v7 =>
    rw [e7] at h
    simp only [Except.bind] at h
    cases e8 : pctField (fields.getD 8 "") with
    | error u =>
      rw [e8] at h
      simp only [Except.bind] at h
      exact Except.noConfusion h
    | ok v8 =>
    rw [e8] at h
    simp only [Except.bind] at h
    cases e9 : pctField (fields.getD 9 "") with
    | error u =>
      rw [e9] at h
      simp only [Except.bind] at h
      exact Except.noConfusion h
    | ok v9 =>
    rw [e9] at h
    simp only [Except.bind] at h
    by_cases h10 : 10 < fields.length
    · rw [if_pos h10] at h ⊢
      cases e10 : pctField (fields.getD 10 "") with
      | error u =>
        rw [e10] at h
        simp at h
      | ok v10 =>
        rw [e10] at h
        simp only [pure, Except.pure, Except.ok.injEq, Option.some.injEq] at h
        subst h
        exact ⟨hlen, rfl, rfl, rfl, rfl, rfl, rfl, rfl⟩
    · rw [if_neg h10] at h ⊢
      simp only [pure, Except.pure, Except.ok.injEq, Option.some.injEq] at h
      subst h
      exact ⟨hlen, rfl, rfl, rfl, rfl, rfl, rfl, rfl⟩

/-- Every row of a successfully parsed row batch comes from one of the
quoted row strings. -/
theorem parseFundStrings_mem (l : List String) (rows : List FundRow)
    (h : parseFundStrings l = .ok rows) (row : FundRow) (hrow : row ∈ rows) :
    ∃ s ∈ l, parseFundStr s = .ok (some row) := by
  induction l generalizing rows with
  | nil =>
    rw [parseFundStrings] at h
    injection h with h'
    subst h'
    simp at hrow
  | cons s rest ih =>
    rw [parseFundStrings] at h
    cases e1 : parseFundStr s with
    | error u =>
      rw [e1] at h
      simp only [Bind.bind, Except.bind] at h
      exact Except.noConfusion h
    | ok r =>
    rw [e1] at h
    simp only [Bind.bind, Except.bind] at h
    cases e2 : parseFundStrings rest with
    | error u =>
      rw [e2] at h
      simp only [Except.bind] at h
      exact Except.noConfusion h
    | ok rs =>
    rw [e2] at h
    simp only [Except.bind] at h
    cases r with
    | some row2 =>
      simp only [Except.ok.injEq] at h
      subst h
      rcases List.mem_cons.mp hrow with rfl | hmem
      · exact ⟨s, List.mem_cons_self s rest, e1⟩
      · obtain ⟨s2, hs2, hp2⟩ := ih rs e2 hmem
        exact ⟨s2, List.mem_cons_of_mem s hs2, hp2⟩
    | none =>
      simp only [Except.ok.injEq] at h
      subst h
      obtain ⟨s2, hs2, hp2⟩ := ih rs e2 hrow
      exact ⟨s2, List.mem_cons_of_mem s hs2, hp2⟩

/-! ## Claim theorems -/

/-- C1 (code bug): a task over one fund code whose HTTP request raises
`RequestException` finishes in status "completed" with
`success_count + error_count = 0` while `total_count = 1`, and the sole task
item is left in status "pending" although the orchestration did not crash:
`fetch_data` swallows the transport failure, and `run_scrape_task` counts and
marks only the fetched records, so nothing ever resolves the item.  This
contradicts the claimed invariant `successCount + errorCount == totalCount`
on completion and "every item ends in success or failed". -/
theorem c1_completed_task_loses_failed_fetch :
    ((runScrapeTask (fun _ => .requestError "timeout") (fun _ => true)
        (createScrapeTask "t1" .eastmoney .fund_basic ["000001"]).1
        (createScrapeTask "t1" .eastmoney .fund_basic ["000001"]).2).1.status
      = "completed") ∧
    ((runScrapeTask (fun _ => .requestError "timeout") (fun _ => true)
        (createScrapeTask "t1" .eastmoney .fund_basic ["000001"]).1
        (createScrapeTask "t1" .eastmoney .fund_basic ["000001"]).2).1.total_count
      = 1) ∧
    ((runScrapeTask (fun _ => .requestError "timeout") (fun _ => true)
        (createScrapeTask "t1" .eastmoney .fund_basic ["000001"]).1
        (createScrapeTask "t1" .eastmoney .fund_basic ["000001"]).2).1.success_count
      + (runScrapeTask (fun _ => .requestError "timeout") (fun _ => true)
        (createScrapeTask "t1" .eastmoney .fund_basic ["000001"]).1
        (createScrapeTask "t1" .eastmoney .fund_basic ["000001"]).2).1.error_count
      = 0) ∧
    ((runScrapeTask (fun _ => .requestError "timeout") (fun _ => true)
        (createScrapeTask "t1" .eastmoney .fund_basic ["000001"]).1
        (createScrapeTask "t1" .eastmoney .fund_basic ["000001"]).2).2.map
          (fun it => it.status) = ["pending"]) := by
  decide

/-- C4: storing a record twice with an identical
`(fund_code, data_type, source, source_url)` key leaves exactly one persisted
row; the second call takes the duplicate branch (performs no write) and its
`stored` outcome is `false`. -/
theorem c4_store_idempotent (r : RawData) (db : List RawFundData)
    (h : rawDataExists r db = false) :
    saveRawData r (saveRawData r db) = saveRawData r db ∧
    (saveRawData r db).countP (matchesKey r) = 1 ∧
    savePerformedWrite r (saveRawData r db) = false := by
  have hf : db.find? (matchesKey r) = none := by
    unfold rawDataExists at h
    cases hd : db.find? (matchesKey r) with
    | none => rfl
    | some x => rw [hd] at h; simp at h
  have hmatch : matchesKey r
      ⟨r.fund_code, r.data_type, r.source, r.source_url, r.raw_content, false⟩
      = true := by
    simp [matchesKey]
  have hsave : saveRawData r db
      = db ++ [⟨r.fund_code, r.data_type, r.source, r.source_url,
          r.raw_content, false⟩] := by
    rw [saveRawData, hf]
  have hfind2 : (saveRawData r db).find? (matchesKey r)
      = some ⟨r.fund_code, r.data_type, r.source, r.source_url,
          r.raw_content, false⟩ := by
    rw [hsave, List.find?_append, hf]
    simp [List.find?_cons_of_pos, hmatch]
  refine ⟨?_, ?_, ?_⟩
  · rw [saveRawData, hfind2]
  · rw [hsave, List.countP_append]
    have h0 : db.countP (matchesKey r) = 0 := by
      rw [List.countP_eq_zero]
      intro a ha
      have := List.find?_eq_none.mp hf a ha
      simpa using this
    simp [h0, List.countP_cons, hmatch]
  · unfold savePerformedWrite rawDataExists
    rw [hfind2]
    rfl

/-- Evaluates C4 at a concrete record and the empty table. -/
theorem c4_store_idempotent_witness :
    (rawDataExists ⟨"000001", .fund_basic, .eastmoney,
        "https://fund.eastmoney.com/000001.html", "body"⟩ [] = false) ∧
    saveRawData ⟨"000001", .fund_basic, .eastmoney,
        "https://fund.eastmoney.com/000001.html", "body"⟩
      (saveRawData ⟨"000001", .fund_basic, .eastmoney,
        "https://fund.eastmoney.com/000001.html", "body"⟩ [])
      = saveRawData ⟨"000001", .fund_basic, .eastmoney,
        "https://fund.eastmoney.com/000001.html", "body"⟩ [] :=
  ⟨by decide,
    (c4_store_idempotent ⟨"000001", .fund_basic, .eastmoney,
      "https://fund.eastmoney.com/000001.html", "body"⟩ [] (by decide)).1⟩

/-- C6 is false as stated: when page 1 reports `totalCount = 0` the collector
does return an empty list, but `update_fund_rank` then reports the empty
result to its caller as `{"status": "error"}` (the guard at
`scrape_service.py:165-167`). -/
theorem c6_empty_listing_reported_as_error :
    updateFundRank (fun _ _ => ⟨[], 0⟩) (some 2) (fun _ => true)
      = .err "fetch rank data failed" := by
  decide

/-- C6 amended: if page 1 (at the default page size 50) reports
`totalCount = 0` with no rows, the collector returns the empty list without
failing, and `update_fund_rank` maps that empty result to a
`{"status": "error"}` dictionary for its caller. -/
theorem c6_amended_empty_listing (fetchPage : Nat → Nat → RankPage)
    (max_pages : Nat) (rowCommits : FundRow → Bool)
    (h : fetchPage 1 50 = ⟨[], 0⟩) :
    getAllFundRankData fetchPage (some max_pages) = [] ∧
    updateFundRank fetchPage (some max_pages) rowCommits
      = .err "fetch rank data failed" := by
  have hempty : getAllFundRankData fetchPage (some max_pages) = [] := by
    simp [getAllFundRankData, getAllFundRankDataPaged, h]
  refine ⟨hempty, ?_⟩
  rw [updateFundRank, hempty]
  rfl

/-- Evaluates C6 amended at the constant empty fetcher. -/
theorem c6_amended_empty_listing_witness :
    ((fun _ _ => (⟨[], 0⟩ : RankPage)) 1 50 = (⟨[], 0⟩ : RankPage)) ∧
    getAllFundRankData (fun _ _ => ⟨[], 0⟩) (some 2) = [] :=
  ⟨rfl, (c6_amended_empty_listing (fun _ _ => ⟨[], 0⟩) 2 (fun _ => true) rfl).1⟩

/-- C7 is false as stated: a transport failure is not propagated as a
distinguishable error.  `_get_fund_rank_page` catches the
`RequestException` and returns exactly the `{"data": [], "total": 0}` value
that a successful fetch of an empty listing returns, and `fetch_data`
catches the exception and returns a list in which the failed code simply
does not appear. -/
theorem c7_transport_failure_indistinguishable :
    (getFundRankPage (.requestError "timeout")
      = getFundRankPage (.ok "var rankData = \x7bdatas:[],totalCount:0\x7d;")) ∧
    fetchData (fun _ => .requestError "timeout") .fund_basic ["000001"] = [] := by
  decide

/-- C7 amended: transport failures are caught and logged, never surfaced:
`_get_fund_rank_page` returns `{"data": [], "total": 0}` (the same value an
empty listing produces), and `fetch_data` silently omits the failed fund
code from its result list; no error value reaches the caller. -/
theorem c7_amended_transport_swallowed (m : String)
    (transport : String → FetchResult) (data_type : DataType) (code : String)
    (h : transport code = .requestError m) :
    getFundRankPage (.requestError m) = ⟨[], 0⟩ ∧
    fetchData transport data_type [code] = [] := by
  refine ⟨rfl, ?_⟩
  simp [fetchData, h]

/-- Evaluates C7 amended at a concrete always-failing transport. -/
theorem c7_amended_transport_swallowed_witness :
    ((fun _ : String => FetchResult.requestError "boom") "000001"
      = .requestError "boom") ∧
    fetchData (fun _ => .requestError "boom") .fund_basic ["000001"] = [] :=
  ⟨rfl, (c7_amended_transport_swallowed "boom"
    (fun _ => .requestError "boom") .fund_basic "000001" rfl).2⟩

/-- C8 is false as stated: when the `var rankData = ` marker is absent the
parser does not fail with a distinguishable `ParseError`; it logs and
returns the very `{"data": [], "total": 0}` value that a successful empty
listing produces. -/
theorem c8_missing_marker_indistinguishable :
    getFundRankPage (.ok "no rankData assignment in this payload")
      = getFundRankPage (.ok "var rankData = \x7bdatas:[],totalCount:0\x7d;") := by
  decide

/-- C8 amended: an absent marker is handled, not a crash — the parse is a
total function and every payload without the marker yields
`{"data": [], "total": 0}` — but the condition is only logged; no
`ParseError` (or any error value) is returned. -/
theorem c8_amended_missing_marker (content : String)
    (h : rankDataMatch content = none) :
    getFundRankPage (.ok content) = ⟨[], 0⟩ := by
  rw [getFundRankPage, h]

/-- Evaluates C8 amended on a concrete marker-free payload. -/
theorem c8_amended_missing_marker_witness :
    (rankDataMatch "no rankData assignment in this payload" = none) ∧
    getFundRankPage (.ok "no rankData assignment in this payload") = ⟨[], 0⟩ :=
  ⟨by decide, c8_amended_missing_marker _ (by decide)⟩

/-- C9: `create_scrape_task` allocates the task in status "pending" with
`total_count` equal to the number of fund codes, zero success and error
counts, one item per code (in order), all items "pending", and returns the
given task id; the function only constructs rows — no fetch occurs. -/
theorem c9_create_task_shape (task_id : String) (source : DataSource)
    (data_type : DataType) (codes : List String) :
    (createScrapeTask task_id source data_type codes).1.status = "pending" ∧
    (createScrapeTask task_id source data_type codes).1.total_count
      = codes.length ∧
    (createScrapeTask task_id source data_type codes).1.success_count = 0 ∧
    (createScrapeTask task_id source data_type codes).1.error_count = 0 ∧
    (createScrapeTask task_id source data_type codes).1.task_id = task_id ∧
    ((createScrapeTask task_id source data_type codes).2.map
      (fun it => it.fund_code)) = codes ∧
    ∀ it ∈ (createScrapeTask task_id source data_type codes).2,
      it.status = "pending" := by
  refine ⟨rfl, rfl, rfl, rfl, rfl, ?_, ?_⟩
  · simp only [createScrapeTask, List.map_map]
    have hcomp : ((fun (it : ScrapeTaskItem) => it.fund_code) ∘ fun code =>
        (⟨task_id, code, "pending", none⟩ : ScrapeTaskItem)) = id := rfl
    rw [hcomp, List.map_id]
  · intro it hit
    simp only [createScrapeTask, List.mem_map] at hit
    obtain ⟨c, _, rfl⟩ := hit
    rfl

/-- Evaluates C9 at a concrete two-code task. -/
theorem c9_create_task_shape_witness :
    (createScrapeTask "t9" .eastmoney .fund_basic ["000001", "000002"]).1.status
      = "pending" ∧
    ∀ it ∈ (createScrapeTask "t9" .eastmoney .fund_basic
      ["000001", "000002"]).2, it.status = "pending" :=
  ⟨(c9_create_task_shape "t9" .eastmoney .fund_basic ["000001", "000002"]).1,
    (c9_create_task_shape "t9" .eastmoney .fund_basic
      ["000001", "000002"]).2.2.2.2.2.2⟩

/-- C2: the paged collector computes
`actual_total_pages = (totalCount + 49) / 50`, which is the least `n` with
`totalCount ≤ 50 n` (i.e. `ceil (totalCount / 50)`); with a caller-supplied
`maxPages ≥ 1` it fetches exactly pages `1 .. min maxPages totalPages`; in
particular `totalCount = 237` gives 5 total pages, and `maxPages = 2`
fetches pages `[1, 2]`, so if every page carries at most the page size of 50
records the result has at most 100 records. -/
theorem c2_pagination (f : Nat → RankPage) (m : Nat) (hm : 1 ≤ m)
    (ht : 1 ≤ (f 1).total) :
    fetchedPages f m = List.range' 1 (min m (((f 1).total + 49) / 50)) ∧
    (f 1).total ≤ 50 * (((f 1).total + 49) / 50) ∧
    (∀ n, (f 1).total ≤ 50 * n → ((f 1).total + 49) / 50 ≤ n) ∧
    (237 + 49) / 50 = 5 ∧
    ((f 1).total = 237 → m = 2 → fetchedPages f m = [1, 2]) ∧
    ((∀ p, ((f p).data).length ≤ 50) → m = 2 →
      (getAllFundRankDataPaged f m).length ≤ 100) := by
  refine ⟨fetchedPages_eq_range f m hm ht, by omega, fun n hn => by omega,
    by norm_num, ?_, ?_⟩
  · intro h237 hm2
    rw [fetchedPages_eq_range f m hm ht, h237, hm2]
    rfl
  · intro hp hm2
    rw [getAllFundRankDataPaged_eq_flatMap]
    have hmin : min m (((f 1).total + 49) / 50) = 1 ∨
        min m (((f 1).total + 49) / 50) = 2 := by omega
    rw [fetchedPages_eq_range f m hm ht]
    rcases hmin with h | h <;> rw [h]
    · simpa using (hp 1).trans (by omega)
    · have := hp 1
      have := hp (1 + 1)
      simp only [List.range']
      simp only [List.flatMap_cons, List.flatMap_nil, List.append_nil,
        List.length_append]
      omega

/-- Evaluates C2 at the constant fetcher reporting 237 records. -/
theorem c2_pagination_witness :
    fetchedPages (fun _ => ⟨[], 237⟩) 2
      = List.range' 1 (min 2 ((((fun _ => (⟨[], 237⟩ : RankPage)) 1).total + 49)
        / 50)) ∧
    ((fun _ => (⟨[], 237⟩ : RankPage)) 1).total = 237 :=
  ⟨(c2_pagination (fun _ => ⟨[], 237⟩) 2 (by omega) (by norm_num)).1, rfl⟩

/-- C5: the serialized `_wait_for_request` bodies space consecutive grant
instants by at least `request_interval = 2` seconds: for any initial
`last_request_time` and any sequence of nonnegative arrival delays, the
grant sequence forms a chain in which each grant exceeds its predecessor
(and the first exceeds the initial timestamp) by at least the interval.
The mutual exclusion of the read-compute-sleep-update block is the
`with self.lock` of the source, modelled by this serialization. -/
theorem c5_rate_limiter_spacing (last : ℚ) (delays : List ℚ)
    (h : ∀ d ∈ delays, 0 ≤ d) :
    List.Chain (fun a b => a + requestInterval ≤ b) last
      (grantTimes last delays) := by
  induction delays generalizing last with
  | nil => exact List.Chain.nil
  | cons d ds ih =>
    have hd : 0 ≤ d := h d (by simp)
    have hstep : last + requestInterval ≤ waitForRequest last (last + d) := by
      unfold waitForRequest requestInterval
      split_ifs with hlt
      · norm_num
      · rw [not_lt] at hlt
        have : (2 : ℚ) ≤ d := by linarith
        linarith
    exact List.Chain.cons hstep
      (ih (waitForRequest last (last + d)) (fun x hx => h x (by simp [hx])))

/-- Evaluates C5 on the trace with delays 0, 3 and 1 from time 0. -/
theorem c5_rate_limiter_spacing_witness :
    (∀ d ∈ [(0 : ℚ), 3, 1], 0 ≤ d) ∧
    List.Chain (fun a b => a + requestInterval ≤ b) 0 (grantTimes 0 [0, 3, 1]) :=
  ⟨by norm_num, c5_rate_limiter_spacing 0 [0, 3, 1] (by norm_num)⟩

/-- C3: every accepted row of a rank listing payload comes from one row
string of the payload; on each accepted row an empty raw field (nav,
accumulated nav, or any growth percentage) becomes `none` — never `0` — and
a nonempty percentage field is converted from its `%`-stripped text, a text
that indeed never retains a trailing `'%'`. -/
theorem c3_percent_strip_and_null_fields :
    (∀ content row, row ∈ (getFundRankPage (.ok content)).data →
      ∃ s, parseFundStr s = .ok (some row)) ∧
    (∀ fields row, parseFundFields fields = .ok (some row) →
      (fields.getD 4 "" = "" → row.nav = none) ∧
      (fields.getD 5 "" = "" → row.accum_nav = none) ∧
      (fields.getD 6 "" = "" → row.daily_growth = none) ∧
      (fields.getD 7 "" = "" → row.weekly_growth = none) ∧
      (fields.getD 8 "" = "" → row.monthly_growth = none) ∧
      (fields.getD 9 "" = "" → row.quarterly_growth = none) ∧
      (fields.getD 10 "" = "" → row.yearly_growth = none) ∧
      (fields.getD 6 "" ≠ "" → ∃ q,
        parseFloat? (rstripPct (fields.getD 6 "")) = some q ∧
          row.daily_growth = some q) ∧
      (fields.getD 7 "" ≠ "" → ∃ q,
        parseFloat? (rstripPct (fields.getD 7 "")) = some q ∧
          row.weekly_growth = some q) ∧
      (fields.getD 8 "" ≠ "" → ∃ q,
        parseFloat? (rstripPct (fields.getD 8 "")) = some q ∧
          row.monthly_growth = some q) ∧
      (fields.getD 9 "" ≠ "" → ∃ q,
        parseFloat? (rstripPct (fields.getD 9 "")) = some q ∧
          row.quarterly_growth = some q) ∧
      (10 < fields.length → fields.getD 10 "" ≠ "" → ∃ q,
        parseFloat? (rstripPct (fields.getD 10 "")) = some q ∧
          row.yearly_growth = some q)) ∧
    (∀ s c, (rstripPct s).data.getLast? = some c → c ≠ '%') := by
  refine ⟨?_, ?_, rstripPct_no_trailing⟩
  · intro content row hrow
    simp only [getFundRankPage] at hrow
    cases hrm : rankDataMatch content with
    | none => simp [hrm] at hrow
    | some grp =>
    simp only [hrm] at hrow
    cases hdm : datasMatch grp with
    | none => simp [hdm] at hrow
    | some datas =>
    simp only [hdm] at hrow
    cases hps : parseFundStrings (quotedStrings datas) with
    | error u => simp [hps] at hrow
    | ok rows =>
    simp only [hps] at hrow
    obtain ⟨s, _, hpar⟩ := parseFundStrings_mem _ _ hps row hrow
    exact ⟨s, hpar⟩
  · intro fields row h
    obtain ⟨hlen, e4, e5, e6, e7, e8, e9, e10⟩ := parseFundFields_inv fields row h
    refine ⟨fun hz => optFloatField_empty_none _ _ e4 hz,
      fun hz => optFloatField_empty_none _ _ e5 hz,
      fun hz => pctField_empty_none _ _ e6 hz,
      fun hz => pctField_empty_none _ _ e7 hz,
      fun hz => pctField_empty_none _ _ e8 hz,
      fun hz => pctField_empty_none _ _ e9 hz,
      ?_,
      fun hz => ?_, fun hz => ?_, fun hz => ?_, fun hz => ?_,
      fun h10 hz => ?_⟩
    · intro hz
      by_cases h10 : 10 < fields.length
      · rw [if_pos h10] at e10
        exact pctField_empty_none _ _ e10 hz
      · rw [if_neg h10] at e10
        injection e10 with e10'
        exact e10'.symm
    · obtain ⟨q, hq, hv⟩ := pctField_some _ _ e6 hz
      exact ⟨q, hq, hv⟩
    · obtain ⟨q, hq, hv⟩ := pctField_some _ _ e7 hz
      exact ⟨q, hq, hv⟩
    · obtain ⟨q, hq, hv⟩ := pctField_some _ _ e8 hz
      exact ⟨q, hq, hv⟩
    · obtain ⟨q, hq, hv⟩ := pctField_some _ _ e9 hz
      exact ⟨q, hq, hv⟩
    · rw [if_pos h10] at e10
      obtain ⟨q, hq, hv⟩ := pctField_some _ _ e10 hz
      exact ⟨q, hq, hv⟩

/-- Evaluates C3 on a concrete accepted row whose numeric fields are all
empty: every parsed value is `none`. -/
theorem c3_percent_strip_and_null_fields_witness :
    (parseFundFields ["000001", "n", "s", "2025-01-01", "", "", "", "", "", ""]
      = .ok (some ⟨"000001", "n", "s", "2025-01-01", none, none, none, none,
          none, none, none⟩)) ∧
    ((["000001", "n", "s", "2025-01-01", "", "", "", "", "", ""].getD 6 "" = "")
      → FundRow.daily_growth ⟨"000001", "n", "s", "2025-01-01", none, none,
          none, none, none, none, none⟩ = none) :=
  ⟨rfl,
    ((c3_percent_strip_and_null_fields.2.1
      ["000001", "n", "s", "2025-01-01", "", "", "", "", "", ""]
      ⟨"000001", "n", "s", "2025-01-01", none, none, none, none, none, none,
        none⟩ rfl).2.2.1)⟩

/-- The kept records form a sublist of the input (relative order preserved,
nothing invented). -/
theorem postProcessAux_sublist (seen : List String) (l : List RawData) :
    (postProcessAux seen l).Sublist l := by
  induction l generalizing seen with
  | nil => exact List.Sublist.refl []
  | cons d rest ih =>
    rw [postProcessAux]
    split_ifs with h
    · exact (ih seen).cons d
    · exact (ih (keyOf d :: seen)).cons₂ d

/-- No kept record carries a key already in `seen`. -/
theorem postProcessAux_key_not_seen (seen : List String) (l : List RawData)
    (e : RawData) (he : e ∈ postProcessAux seen l) : keyOf e ∉ seen := by
  induction l generalizing seen with
  | nil => simp [postProcessAux] at he
  | cons d rest ih =>
    rw [postProcessAux] at he
    split_ifs at he with h
    · exact ih seen he
    · rcases List.mem_cons.mp he with rfl | he2
      · exact h
      · have hmem := ih (keyOf d :: seen) he2
        intro hin
        exact hmem (List.mem_cons_of_mem _ hin)

/-- The kept records have pairwise distinct keys. -/
theorem postProcessAux_keys_nodup (seen : List String) (l : List RawData) :
    ((postProcessAux seen l).map keyOf).Nodup := by
  induction l generalizing seen with
  | nil => simp [postProcessAux]
  | cons d rest ih =>
    rw [postProcessAux]
    split_ifs with h
    · exact ih seen
    · simp only [List.map_cons, List.nodup_cons]
      refine ⟨?_, ih (keyOf d :: seen)⟩
      intro hmem
      rcases List.mem_map.mp hmem with ⟨e, he, hke⟩
      exact postProcessAux_key_not_seen _ _ _ he
        (hke ▸ List.mem_cons_self _ _)

/-- Every kept record is the first record of the input bearing its key. -/
theorem postProcessAux_first_occ (seen : List String) (l : List RawData)
    (e : RawData) (he : e ∈ postProcessAux seen l) :
    l.find? (fun d => keyOf d == keyOf e) = some e := by
  induction l generalizing seen with
  | nil => simp [postProcessAux] at he
  | cons d rest ih =>
    rw [postProcessAux] at he
    split_ifs at he with h
    · have hne : keyOf d ≠ keyOf e := by
        intro hEq
        exact postProcessAux_key_not_seen seen rest e he (hEq ▸ h)
      rw [List.find?_cons_of_neg _ (by simpa using hne)]
      exact ih seen he
    · rcases List.mem_cons.mp he with rfl | he2
      · rw [List.find?_cons_of_pos _ (by simp)]
      · have hne : keyOf d ≠ keyOf e := by
          intro hEq
          exact postProcessAux_key_not_seen (keyOf d :: seen) rest e he2
            (hEq ▸ List.mem_cons_self _ _)
        rw [List.find?_cons_of_neg _ (by simpa using hne)]
        exact ih (keyOf d :: seen) he2

/-- Every input record whose key is not yet seen is represented among the
kept records. -/
theorem postProcessAux_represents (seen : List String) (l : List RawData)
    (d : RawData) (hd : d ∈ l) (hkey : keyOf d ∉ seen) :
    ∃ e ∈ postProcessAux seen l, keyOf e = keyOf d := by
  induction l generalizing seen with
  | nil => simp at hd
  | cons a rest ih =>
    rw [postProcessAux]
    rcases List.mem_cons.mp hd with rfl | hd2
    · rw [if_neg hkey]
      exact ⟨d, List.mem_cons_self _ _, rfl⟩
    · split_ifs with h
      · exact ih seen hd2 hkey
      · by_cases hk : keyOf d = keyOf a
        · exact ⟨a, List.mem_cons_self _ _, hk.symm⟩
        · obtain ⟨e, he, hke⟩ := ih (keyOf a :: seen) hd2 (by simp [hk, hkey])
          exact ⟨e, List.mem_cons_of_mem _ he, hke⟩

/-- The dedup pass is idempotent. -/
theorem postProcessAux_idem (l : List RawData) (seen : List String) :
    postProcessAux seen (postProcessAux seen l) = postProcessAux seen l := by
  induction l generalizing seen with
  | nil => rfl
  | cons d rest ih =>
    rw [postProcessAux]
    split_ifs with h
    · exact ih seen
    · conv_lhs => rw [postProcessAux]
      rw [if_neg h]
      rw [ih (keyOf d :: seen)]

/-- C10 amended: `post_process` deduplicates by the dash-joined *string*
key `f"{fund_code}-{data_type}-{source}-{source_url}"`: the output is a
sublist of the input (order preserved), its string keys are pairwise
distinct, every kept record is the first input record bearing its string
key, every input key is represented, and the pass is idempotent. -/
theorem c10_amended_dedup_by_joined_key (l : List RawData) :
    (postProcess l).Sublist l ∧
    ((postProcess l).map keyOf).Nodup ∧
    (∀ e ∈ postProcess l, l.find? (fun d => keyOf d == keyOf e) = some e) ∧
    (∀ d ∈ l, ∃ e ∈ postProcess l, keyOf e = keyOf d) ∧
    postProcess (postProcess l) = postProcess l :=
  ⟨postProcessAux_sublist [] l, postProcessAux_keys_nodup [] l,
    fun e he => postProcessAux_first_occ [] l e he,
    fun d hd => postProcessAux_represents [] l d hd (by simp),
    postProcessAux_idem l []⟩

/-- C10 is false as stated: deduplication is *not* by the tuple
`(fund_code, data_type, source, source_url)` — two records with distinct
tuples whose dash-joined keys collide are conflated, the second being
dropped even though its tuple key occurs only once. -/
theorem c10_joined_key_conflates_distinct_tuples :
    postProcess [⟨"a", .fund_basic, .eastmoney, "u-fund_basic-eastmoney-u", "x"⟩,
        ⟨"a-fund_basic-eastmoney-u", .fund_basic, .eastmoney, "u", "y"⟩]
      = [⟨"a", .fund_basic, .eastmoney, "u-fund_basic-eastmoney-u", "x"⟩] ∧
    RawData.fund_code ⟨"a", .fund_basic, .eastmoney,
        "u-fund_basic-eastmoney-u", "x"⟩
      ≠ RawData.fund_code ⟨"a-fund_basic-eastmoney-u", .fund_basic,
        .eastmoney, "u", "y"⟩ ∧
    postProcess [⟨"a", .fund_basic, .eastmoney, "u-fund_basic-eastmoney-u", "x"⟩,
        ⟨"a-fund_basic-eastmoney-u", .fund_basic, .eastmoney, "u", "y"⟩]
      ≠ postProcessByTuple
        [⟨"a", .fund_basic, .eastmoney, "u-fund_basic-eastmoney-u", "x"⟩,
          ⟨"a-fund_basic-eastmoney-u", .fund_basic, .eastmoney, "u", "y"⟩] := by
  refine ⟨by decide, by decide, by decide⟩

/-- Evaluates C10 amended on a concrete duplicated-key list. -/
theorem c10_amended_dedup_by_joined_key_witness :
    postProcess (postProcess
        [⟨"a", .fund_basic, .eastmoney, "u", "x"⟩,
          ⟨"a", .fund_basic, .eastmoney, "u", "y"⟩])
      = postProcess
        [⟨"a", .fund_basic, .eastmoney, "u", "x"⟩,
          ⟨"a", .fund_basic, .eastmoney, "u", "y"⟩] ∧
    (postProcess
        [⟨"a", .fund_basic, .eastmoney, "u", "x"⟩,
          ⟨"a", .fund_basic, .eastmoney, "u", "y"⟩]).Sublist
      [⟨"a", .fund_basic, .eastmoney, "u", "x"⟩,
        ⟨"a", .fund_basic, .eastmoney, "u", "y"⟩] :=
  ⟨(c10_amended_dedup_by_joined_key
      [⟨"a", .fund_basic, .eastmoney, "u", "x"⟩,
        ⟨"a", .fund_basic, .eastmoney, "u", "y"⟩]).2.2.2.2,
    (c10_amended_dedup_by_joined_key
      [⟨"a", .fund_basic, .eastmoney, "u", "x"⟩,
        ⟨"a", .fund_basic, .eastmoney, "u", "y"⟩]).1⟩

end AIBI
